import Mathlib

/-!
Verification of the sludge-experiment server (`src/server.js`): session log
reading, session merging, completion-status classification, block
randomization, answer-key scoring, and per-page statistics aggregation.

JavaScript values are modelled by the inductive `JVal`; a JS object is an
insertion-ordered list of key/value bindings (`JObj`) where a later binding
for a key shadows an earlier one, so `Object.assign(target, patch)` is
modelled by list append and property lookup (`jget`) takes the last binding.
Machine floats only ever hold integral millisecond counts and small indices
in this code, so numbers are modelled as `Int`.
-/

namespace Sludge

/-- A JSON/JavaScript value. `jnull` models both `null` and JSON `null`;
an absent property is modelled by `Option.none` at the lookup level
(JS `undefined`). Nested structures use insertion-ordered binding lists. -/
inductive JVal where
  | jnull : JVal
  | jbool : Bool → JVal
  | jnum : Int → JVal
  | jstr : String → JVal
  | jarr : List JVal → JVal
  | jobj : List (String × JVal) → JVal

/-- A JavaScript object: insertion-ordered key/value bindings, later bindings
for the same key shadow earlier ones. -/
abbrev JObj := List (String × JVal)

/-- JS truthiness: `null`, `false`, `0` and `""` are falsy; every array and
object (even empty) is truthy. -/
def truthy : JVal → Bool
  | JVal.jnull => false
  | JVal.jbool b => b
  | JVal.jnum n => n != 0
  | JVal.jstr s => !s.isEmpty
  | JVal.jarr _ => true
  | JVal.jobj _ => true

/-- Truthiness of a possibly-absent property (`undefined` is falsy). -/
def truthyOpt : Option JVal → Bool
  | some v => truthy v
  | none => false

/-- Property lookup on a `JObj`: the LAST binding for the key wins, because
`Object.assign` is modelled by appending the patch's bindings. -/
def jget (o : JObj) (k : String) : Option JVal :=
  ((o.filter (fun p => p.1 == k)).getLast?).map (fun p => p.2)

/-- `Object.assign(target, patch)` at the value level: the patch's bindings
are appended, so they shadow the target's bindings for the same keys. -/
def jassign (target patch : JObj) : JObj :=
  target ++ patch

/-- Element coercion used by `Array.prototype.join`: `null`/`undefined`
become the empty string, everything else is string-coerced. Nested arrays
(which never occur in this code's data) are not recursed into. -/
def joinElemShallow : JVal → String
  | JVal.jnull => ""
  | JVal.jbool b => cond b "true" "false"
  | JVal.jnum n => toString n
  | JVal.jstr s => s
  | JVal.jobj _ => "[object Object]"
  | JVal.jarr _ => ""

/-- JS `String(v)` coercion. An array stringifies as its elements joined by
commas (one level; nested arrays do not occur in this code's data). -/
def jsToString : JVal → String
  | JVal.jnull => "null"
  | JVal.jbool b => cond b "true" "false"
  | JVal.jnum n => toString n
  | JVal.jstr s => s
  | JVal.jobj _ => "[object Object]"
  | JVal.jarr xs => String.intercalate "," (xs.map joinElemShallow)

/-- `arr.join(sep)`: `null`/`undefined` elements become empty strings. -/
def joinVals (sep : String) (xs : List JVal) : String :=
  String.intercalate sep (xs.map (fun x =>
    match x with
    | JVal.jnull => ""
    | v => jsToString v))

/-- JS property-key coercion of a possibly-absent value (`map[x]` where `x`
is the value of `u.session_id`): `undefined` keys the slot `"undefined"`. -/
def toKeyString : Option JVal → String
  | none => "undefined"
  | some v => jsToString v

/-- The map key a session record is stored under in `getMergedSessions`
(`map[s.session_id]`), i.e. the string coercion of its `session_id` field. -/
def sessionKey (o : JObj) : String :=
  toKeyString (jget o "session_id")

-- ---------------------------------------------------------------------------
-- Generic string-keyed dictionary (a JS plain object used as a map).
-- ---------------------------------------------------------------------------

/-- First-match lookup in a dictionary whose keys are unique (JS object used
as a map: one slot per key). -/
def aget {α : Type} (m : List (String × α)) (k : String) : Option α :=
  (m.find? (fun p => p.1 == k)).map (fun p => p.2)

/-- A JS map-style store `m[k] = ...`: update the existing slot with `f` if
present, otherwise append a fresh slot holding `init`. -/
def upsertWith {α : Type} (m : List (String × α)) (k : String) (f : α → α) (init : α) :
    List (String × α) :=
  if m.any (fun p => p.1 == k) then
    m.map (fun p => if p.1 == k then (p.1, f p.2) else p)
  else
    m ++ [(k, init)]

-- ---------------------------------------------------------------------------
-- Event Log Store: readJsonl (server.js lines 757-765 of the merged source).
-- ---------------------------------------------------------------------------

/-- The record list produced from the lines of a JSONL file. `parse` models
`JSON.parse` (the Node primitive): `none` means the parse threw, which the
code converts to `null`; `filter(Boolean)` then drops the `null`s — and any
parsed value that is itself falsy, though every record this server writes is
a JSON object and hence truthy. -/
def readLines (parse : String → Option JVal) (lines : List String) : List JVal :=
  (lines.map (fun line => (parse line).getD JVal.jnull)).filter truthy

/-- `readJsonl`: `none` content means the file does not exist (`[]`); blank
content (after trim) yields `[]`; otherwise the trimmed content is split on
newlines and each line parsed, corrupt lines skipped. -/
def readJsonl (parse : String → Option JVal) (content : Option String) : List JVal :=
  match content with
  | none => []
  | some c =>
    if c.trim = "" then []
    else readLines parse (c.trim.splitOn "\n")

-- ---------------------------------------------------------------------------
-- getMergedSessions (server.js lines 1024-1031).
-- ---------------------------------------------------------------------------

/-- `map[s.session_id] = { ...s }`: store a (copy of a) creation record under
its session key, replacing any previous record with that key in place. -/
def insertSession (m : List (String × JObj)) (s : JObj) : List (String × JObj) :=
  upsertWith m (sessionKey s) (fun _ => s) s

/-- `if (map[u.session_id]) Object.assign(map[u.session_id], u)`: apply an
update record to the stored record with the same key, if any; an update
whose key has no stored record is a no-op. -/
def applyUpdate (m : List (String × JObj)) (u : JObj) : List (String × JObj) :=
  m.map (fun p => if p.1 == sessionKey u then (p.1, jassign p.2 u) else p)

/-- `getMergedSessions()`: index the creation records by session id, apply
every update record in append order to its creation record, and return the
merged records (`Object.values`, i.e. in first-insertion order). -/
def getMergedSessions (sessions updates : List JObj) : List JObj :=
  (updates.foldl applyUpdate (sessions.foldl insertSession [])).map (fun p => p.2)

-- ---------------------------------------------------------------------------
-- Completion status (server.js lines 1416-1457) and its helpers.
-- ---------------------------------------------------------------------------

/-- Flatten `formResponses` (page id → page data) into one response object:
`Object.values(formResponses).forEach(pageData => Object.assign(responses,
pageData))`. A non-object page value contributes only array-index/character
keys in JS, which no tracked field name is, so it contributes nothing here. -/
def flattenResponses : JVal → JObj
  | JVal.jobj pages =>
    (pages.map (fun p =>
      match p.2 with
      | JVal.jobj fields => fields
      | _ => ([] : JObj))).flatten
  | _ => []

/-- `checkIneligible`: falsy `formResponses` → false; otherwise the flattened
responses' `is_eligible` is strictly equal to the string `'no'`. -/
def checkIneligible (session : JObj) : Bool :=
  match jget session "formResponses" with
  | none => false
  | some fr =>
    if truthy fr then
      match jget (flattenResponses fr) "is_eligible" with
      | some (JVal.jstr v) => v == "no"
      | _ => false
    else false

/-- The designated post-submission page ids checked against `currentPageId`. -/
def postSubmissionPages : List String :=
  ["application_submitted", "demographics", "attention_check", "feedback",
   "debrief", "completion"]

/-- `(session.currentPageIndex || 0) >= 12` for the numeric page indices this
API writes; a falsy or absent index reads as `0`, hence false. (Exotic JS
numeric coercions of non-number indices are outside the data domain.) -/
def pageIndexPastSubmission : Option JVal → Bool
  | some (JVal.jnum n) => decide (n ≥ 12)
  | _ => false

/-- `hasReachedSubmission`: `application_submitted` appears in `pageTimings`,
or `currentPageId` is a (truthy) post-submission page id, or the numeric
`currentPageIndex` fallback is at or past 12. -/
def hasReachedSubmission (session : JObj) : Bool :=
  (match jget session "pageTimings" with
   | some (JVal.jarr pts) =>
     pts.any (fun pt =>
       match pt with
       | JVal.jobj fields =>
         (match jget fields "pageId" with
          | some (JVal.jstr p) => p == "application_submitted"
          | _ => false)
       | _ => false)
   | _ => false)
  ||
  (match jget session "currentPageId" with
   | some (JVal.jstr p) => !p.isEmpty && postSubmissionPages.contains p
   | _ => false)
  ||
  pageIndexPastSubmission (jget session "currentPageIndex")

/-- `getCompletionStatus`: the five-state classification, first match wins in
the order ineligible, complete, submitted, dropped, incomplete. -/
def getCompletionStatus (session : JObj) : String :=
  if checkIneligible session then "ineligible"
  else if truthyOpt (jget session "is_complete") then "complete"
  else if hasReachedSubmission session then "submitted"
  else if truthyOpt (jget session "consent_given") then "dropped"
  else "incomplete"

-- ---------------------------------------------------------------------------
-- Per-page statistics (the /api/stats pageStats fold, lines 1529-1556).
-- Sessions enter this fold through their pageTimings entries, each of which
-- is an object `{pageId, enterTime, exitTime, durationMs}`; the fold reads
-- only `pageId` and `durationMs`, modelled here as the projected pair.
-- ---------------------------------------------------------------------------

/-- Per-page accumulator slot of the stats fold. -/
structure PStat where
  totalTime : Int
  nTime : Nat
  totalErrors : Int
  nWithErrors : Nat
  nTotal : Nat

/-- The zero-initialised slot `{ totalTime: 0, nTime: 0, totalErrors: 0,
nWithErrors: 0, nTotal: 0 }`. -/
def zeroStat : PStat := ⟨0, 0, 0, 0, 0⟩

/-- The page order used to pre-seed `pageStats` with zero slots. -/
def PAGE_ORDER : List String :=
  ["consent", "instructions", "confirm_instructions",
   "applicant_details",
   "eligibility_rules", "doc_upload_eligibility", "doc_upload_residence",
   "vehicle_info", "vehicle_category", "vehicle_fuel", "vehicle_env_class",
   "application_review", "application_submitted",
   "ineligible_end",
   "demographics", "attention_check",
   "feedback", "debrief", "completion"]

/-- A session as seen by the stats fold: its `pageTimings` projected to
(pageId, durationMs) pairs and its `errorCountsByPage` map, each absent when
the merged record lacks the field. -/
structure StatSession where
  pageTimings : Option (List (String × Int))
  errorCountsByPage : Option (List (String × Int))

/-- `sessionPageTotals`: collapse one session's pageTimings into one total
per page (`sessionPageTotals[pt.pageId] += pt.durationMs`). -/
def sessionPageTotals (pts : List (String × Int)) : List (String × Int) :=
  pts.foldl (fun m pt => upsertWith m pt.1 (fun t => t + pt.2) pt.2) []

/-- `pageStats[pid].totalTime += totalMs; nTime++; nTotal++` with
zero-initialisation of a missing slot. -/
def addPageTime (m : List (String × PStat)) (pid : String) (totalMs : Int) :
    List (String × PStat) :=
  upsertWith m pid
    (fun st => { st with totalTime := st.totalTime + totalMs,
                         nTime := st.nTime + 1, nTotal := st.nTotal + 1 })
    { zeroStat with totalTime := totalMs, nTime := 1, nTotal := 1 }

/-- `pageStats[pid].totalErrors += cnt; if (cnt > 0) nWithErrors++` with
zero-initialisation of a missing slot. -/
def addPageErrors (m : List (String × PStat)) (pid : String) (cnt : Int) :
    List (String × PStat) :=
  upsertWith m pid
    (fun st => { st with totalErrors := st.totalErrors + cnt,
                         nWithErrors := st.nWithErrors + (if cnt > 0 then 1 else 0) })
    { zeroStat with totalErrors := cnt, nWithErrors := if cnt > 0 then 1 else 0 }

/-- One exploitable session's contribution to `pageStats`: per-session page
totals are formed first and then folded in, so each session counts once per
page; the session's per-page error counts are folded in afterwards. -/
def accumSession (m : List (String × PStat)) (s : StatSession) :
    List (String × PStat) :=
  let m1 :=
    match s.pageTimings with
    | some pts =>
      (sessionPageTotals pts).foldl (fun acc e => addPageTime acc e.1 e.2) m
    | none => m
  match s.errorCountsByPage with
  | some ecs => ecs.foldl (fun acc e => addPageErrors acc e.1 e.2) m1
  | none => m1

/-- The `pageStats` table over the exploitable sessions, pre-seeded with a
zero slot for every page in `PAGE_ORDER`. -/
def pageStatsOf (exploitable : List StatSession) : List (String × PStat) :=
  exploitable.foldl accumSession (PAGE_ORDER.map (fun pid => (pid, zeroStat)))

/-- The accumulated `totalTime` for a page (0 when the page has no slot). -/
def statTotalTime (exploitable : List StatSession) (pid : String) : Int :=
  ((aget (pageStatsOf exploitable) pid).map PStat.totalTime).getD 0

/-- The accumulated `nTime` for a page (0 when the page has no slot). -/
def statNTime (exploitable : List StatSession) (pid : String) : Nat :=
  ((aget (pageStatsOf exploitable) pid).map PStat.nTime).getD 0

/-- The `totalTime` stored for a page in an arbitrary stats accumulator. -/
def ttOf (m : List (String × PStat)) (pid : String) : Int :=
  ((aget m pid).map PStat.totalTime).getD 0

/-- The `nTime` stored for a page in an arbitrary stats accumulator. -/
def ntOf (m : List (String × PStat)) (pid : String) : Nat :=
  ((aget m pid).map PStat.nTime).getD 0

/-- The reported per-page average `totalTime / nTime`, as an exact rational
(the JS double division; `Math.round` is applied only for display). -/
def avgTimeQ (exploitable : List StatSession) (pid : String) : ℚ :=
  (statTotalTime exploitable pid : ℚ) / (statNTime exploitable pid : ℚ)

/-- One session's summed time on a page across all its visits. -/
def sessionTotalFor (s : StatSession) (pid : String) : Int :=
  match s.pageTimings with
  | some pts => (((pts.filter (fun pt => pt.1 == pid))).map (fun pt => pt.2)).sum
  | none => 0

/-- Whether a session visited a page at all (has a pageTimings entry for it). -/
def sessionVisited (s : StatSession) (pid : String) : Bool :=
  match s.pageTimings with
  | some pts => pts.any (fun pt => pt.1 == pid)
  | none => false

-- ---------------------------------------------------------------------------
-- CSV export per-session timing map (lines 1246-1250): later pageTimings
-- entries for the same page OVERWRITE earlier ones.
-- ---------------------------------------------------------------------------

/-- `timingMap[pt.pageId] = pt.durationMs` over a session's pageTimings. -/
def timingMapOf (pts : List (String × Int)) : List (String × Int) :=
  pts.foldl (fun m pt => upsertWith m pt.1 (fun _ => pt.2) pt.2) []

/-- The value of the `time_<pid>_ms` CSV cell for one session (`none` renders
as the empty cell). -/
def csvTimeCell (pts : List (String × Int)) (pid : String) : Option Int :=
  aget (timingMapOf pts) pid

-- ---------------------------------------------------------------------------
-- Block randomizer (server.js lines 774-819).
-- ---------------------------------------------------------------------------

/-- The two estimation conditions. -/
def ESTIMATION_CONDITIONS : List String := ["self", "average"]

/-- Block size: 2 self + 2 average per block. -/
def ESTIMATION_BLOCK_SIZE : Nat := 4

/-- The session's `condition_code` when it is a string (the only case the
randomizer's `includes` check can accept). -/
def condOf (s : JObj) : Option String :=
  match jget s "condition_code" with
  | some (JVal.jstr c) => some c
  | _ => none

/-- `!s.condition_forced && s.condition_code &&
ESTIMATION_CONDITIONS.includes(s.condition_code)`: a non-forced session whose
condition code is one of the valid condition strings. (A valid code is a
nonempty string, so the truthiness conjunct is subsumed by membership.) -/
def orgValid (s : JObj) : Bool :=
  !truthyOpt (jget s "condition_forced") &&
  (match condOf s with
   | some c => ESTIMATION_CONDITIONS.contains c
   | none => false)

/-- The non-forced, valid-condition prior assignments the randomizer counts. -/
def assignedOf (existing : List JObj) : List String :=
  (existing.filter orgValid).filterMap condOf

/-- Swap two positions of a list (out-of-range indices leave it unchanged
only through `getD`'s default, which the in-range shuffle never hits). -/
def listSwap (l : List String) (i j : Nat) : List String :=
  (l.set i (l.getD j "")).set j (l.getD i "")

/-- Fisher–Yates shuffle: for `i` from `length-1` down to `1`, swap position
`i` with position `j = draws i % (i+1)`, where `draws i` models the random
draw `Math.floor(Math.random() * (i + 1))` (reduced mod `i+1` to keep the
modelled draw in the same range). -/
def fisherYates (l : List String) (draws : Nat → Nat) : List String :=
  ((List.range l.length).reverse.dropLast).foldl
    (fun acc i => listSwap acc i (draws i % (i + 1))) l

/-- The freshly generated block before shuffling: `B/C` copies of each
condition in condition order. -/
def freshBlock : List String :=
  ESTIMATION_CONDITIONS.flatMap
    (fun c => List.replicate (ESTIMATION_BLOCK_SIZE / ESTIMATION_CONDITIONS.length) c)

/-- The mid-block consistency check: the cached block exists, has the block
size, and its first `posInBlock` entries equal the trailing `posInBlock`
recorded non-forced assignments. -/
def cacheConsistent (cache : Option (List String)) (assigned : List String) : Bool :=
  let posInBlock := assigned.length % ESTIMATION_BLOCK_SIZE
  match cache with
  | some blk =>
    blk.length == ESTIMATION_BLOCK_SIZE &&
    decide (blk.take posInBlock = assigned.drop (assigned.length - posInBlock))
  | none => false

/-- The body of `blockRandomize` once the counted assignments are known.
`draws` supplies the shuffle randomness, `coin` models
`Math.random() < 0.5` in the balanced tie-break. Returns the assigned
condition and the new cached block. -/
def blockRandomizeBody (draws : Nat → Nat) (coin : Bool)
    (cache : Option (List String)) (assigned : List String) :
    String × Option (List String) :=
  let posInBlock := assigned.length % ESTIMATION_BLOCK_SIZE
  if posInBlock == 0 then
    let block := fisherYates freshBlock draws
    (block.headD "", some block)
  else if cacheConsistent cache assigned then
    ((cache.getD []).getD posInBlock "", cache)
  else
    let selfCount := (assigned.filter (fun c => c == "self")).length
    let avgCount := (assigned.filter (fun c => c == "average")).length
    if selfCount < avgCount then ("self", cache)
    else if avgCount < selfCount then ("average", cache)
    else ((if coin then "self" else "average"), cache)

/-- `blockRandomize(existingSessions)`: count the non-forced, valid-condition
prior assignments and dispatch on the position within the current block. -/
def blockRandomize (draws : Nat → Nat) (coin : Bool)
    (cache : Option (List String)) (existing : List JObj) :
    String × Option (List String) :=
  blockRandomizeBody draws coin cache (assignedOf existing)

-- ---------------------------------------------------------------------------
-- Answer-key scoring (server.js lines 1062-1183).
-- ---------------------------------------------------------------------------

/-- An answer-key rule, as dispatched by `scoreApplication`: the
`checkbox_must_include` type, the `one_of` type, a rule with a custom
`compare` function, or plain normalized string comparison (`normalize`
defaulting to the identity). -/
inductive Rule where
  | mustInclude : List String → Rule
  | oneOf : List String → Rule
  | custom : String → (String → String → Bool) → Rule
  | simple : String → (String → String) → Rule

/-- `v.trim().toLowerCase()`. -/
def normTrimLower (v : String) : String := v.trim.toLower

/-- `v.trim().toLowerCase().replace(/\s/g, '')`. -/
def normIdStrip (v : String) : String :=
  String.mk ((v.trim.toLower).data.filter (fun c => !c.isWhitespace))

/-- JS `parseInt` on the strings this form produces: optional sign then a
leading digit run; `none` models `NaN`. -/
def jsParseInt (s : String) : Option Int :=
  let parseDigits : List Char → Option Nat := fun cs =>
    let ds := cs.takeWhile Char.isDigit
    if ds.isEmpty then none
    else some (ds.foldl (fun a c => 10 * a + (c.toNat - 48)) 0)
  match s.trimLeft.data with
  | '-' :: rest => (parseDigits rest).map (fun n => -(n : Int))
  | '+' :: rest => (parseDigits rest).map (fun n => (n : Int))
  | cs => (parseDigits cs).map (fun n => (n : Int))

/-- Template interpolation of a parseInt result (`NaN` prints as "NaN"). -/
def parseIntString (v : Option Int) : String :=
  match v with
  | none => "NaN"
  | some n => toString n

/-- The date normalizer inside the `date_of_birth` compare function:
`parseInt(p[0]) + '/' + parseInt(p[1]) + '/' + p[2]` (a missing third
component interpolates as "undefined", a missing second as NaN). -/
def dateNorm (v : String) : String :=
  let p := v.splitOn "/"
  parseIntString (jsParseInt (p.headD "")) ++ "/" ++
  parseIntString ((p.get? 1).bind jsParseInt) ++ "/" ++
  ((p.get? 2).getD "undefined")

/-- The `date_of_birth` comparator: equality of the normalized forms. -/
def dateCompare (submitted correct : String) : Bool :=
  dateNorm submitted == dateNorm correct

/-- The required eligibility documents of the answer key. -/
def ELIG_REQUIRED : List String :=
  ["vehicle_registration", "insurance_certificate", "technical_inspection"]

/-- The fixed `ANSWER_KEY`, in source order. -/
def ANSWER_KEY : List (String × Rule) :=
  [("first_name", Rule.simple "john" normTrimLower),
   ("last_name", Rule.simple "doe" normTrimLower),
   ("date_of_birth", Rule.custom "12/06/1990" dateCompare),
   ("national_id", Rule.simple "id-458921" normIdStrip),
   ("is_eligible", Rule.simple "yes" id),
   ("eligibility_documents", Rule.mustInclude ELIG_REQUIRED),
   ("residence_document", Rule.oneOf ["electricity_bill"]),
   ("vehicle_registration_number", Rule.simple "gx-417-zr" normIdStrip),
   ("vehicle_owner_type", Rule.simple "private" id),
   ("vehicle_category", Rule.simple "M1" id),
   ("vehicle_fuel_type", Rule.simple "hybrid_synth" id),
   ("vehicle_env_classification", Rule.simple "z3" id)]

/-- One scoring error entry `{field, submitted, expected, description}`. -/
structure ScoreError where
  field : String
  submitted : JVal
  expected : JVal
  description : String

/-- One over-documentation entry
`{field, extraDocs, totalSelected, requiredCount}`. -/
structure OverDoc where
  field : String
  extraDocs : List JVal
  totalSelected : Nat
  requiredCount : Nat

/-- The result of `scoreApplication`. -/
structure ScoreResult where
  totalErrors : Nat
  errors : List ScoreError
  wouldReject : Bool
  overDocumentation : List OverDoc

/-- The freshly initialised result object. -/
def emptyScore : ScoreResult := ⟨0, [], false, []⟩

/-- `===` of an array element against a required string. -/
def jvalEqStr : JVal → String → Bool
  | JVal.jstr s, r => s == r
  | _, _ => false

/-- The error entries (0 or 1) and over-documentation entries (0 or 1)
contributed by one answer-key field, given the flattened responses. A value
of `undefined`/`null`/`''` skips the field entirely. In the custom-compare
branch a non-string submission is scored incorrect here; in JS it would
throw inside the comparator, but no write path produces one for that field. -/
def fieldResult (responses : JObj) (field : String) (rule : Rule) :
    List ScoreError × List OverDoc :=
  match jget responses field with
  | none => ([], [])
  | some JVal.jnull => ([], [])
  | some (JVal.jstr "") => ([], [])
  | some v =>
    match rule with
    | Rule.mustInclude correct =>
      let arr := match v with | JVal.jarr xs => xs | _ => [v]
      let missing := correct.filter (fun req => !(arr.any (fun x => jvalEqStr x req)))
      let errs :=
        if missing.isEmpty then ([] : List ScoreError)
        else [⟨field, JVal.jstr (joinVals ", " arr),
               JVal.jstr (String.intercalate ", " correct),
               "Missing required document(s): " ++ String.intercalate ", " missing⟩]
      let extras := arr.filter (fun x =>
        !(match x with | JVal.jstr s => correct.contains s | _ => false))
      let ods :=
        if extras.isEmpty then ([] : List OverDoc)
        else [⟨field, extras, arr.length, correct.length⟩]
      (errs, ods)
    | Rule.oneOf correct =>
      let ok := match v with | JVal.jstr s => correct.contains s | _ => false
      (if ok then []
       else [⟨field, v, JVal.jstr ("one of: " ++ String.intercalate ", " correct),
              "Invalid choice for " ++ field⟩], [])
    | Rule.custom correct cmp =>
      let ok := match v with | JVal.jstr s => cmp s correct | _ => false
      (if ok then []
       else [⟨field, v, JVal.jstr correct, "Incorrect " ++ field⟩], [])
    | Rule.simple correct normalize =>
      (if normalize (jsToString v) == normalize correct then []
       else [⟨field, v, JVal.jstr correct, "Incorrect " ++ field⟩], [])

/-- One loop iteration of `scoreApplication`: push the field's error entry
(with the paired `totalErrors++`) and its over-documentation entry onto the
accumulated result. -/
def scoreField (responses : JObj) (acc : ScoreResult) (entry : String × Rule) :
    ScoreResult :=
  let r := fieldResult responses entry.1 entry.2
  { acc with totalErrors := acc.totalErrors + r.1.length,
             errors := acc.errors ++ r.1,
             overDocumentation := acc.overDocumentation ++ r.2 }

/-- The flattened responses `scoreApplication` scores against: empty when
`formResponses` is absent or falsy. -/
def responsesOf (session : JObj) : JObj :=
  match jget session "formResponses" with
  | none => []
  | some fr => if truthy fr then flattenResponses fr else []

/-- `scoreApplication(session)`: flatten the responses, score every
answer-key field in key order, then set `wouldReject = totalErrors > 0`.
Falsy/absent `formResponses` returns the initial result unchanged. -/
def scoreApplication (session : JObj) : ScoreResult :=
  match jget session "formResponses" with
  | none => emptyScore
  | some fr =>
    if truthy fr then
      let responses := flattenResponses fr
      let r := ANSWER_KEY.foldl (scoreField responses) emptyScore
      { r with wouldReject := decide (0 < r.totalErrors) }
    else emptyScore

-- ---------------------------------------------------------------------------
-- Session update records written by the API handlers (lines 929-990) and the
-- in-memory-index snapshot guard.
-- ---------------------------------------------------------------------------

/-- `x || d` on a possibly-absent property: the property when truthy,
otherwise the default. -/
def jsOr (v : Option JVal) (d : JVal) : JVal :=
  match v with
  | some x => if truthy x then x else d
  | none => d

/-- The completion update record built by `POST /api/session/complete`
(`now` is `new Date().toISOString()`). -/
def completionRecord (body : JObj) (now : String) : JObj :=
  [("session_id", (jget body "session_id").getD JVal.jnull),
   ("update_type", JVal.jstr "complete"),
   ("completed_at", JVal.jstr now),
   ("is_complete", JVal.jbool true),
   ("totalDurationMs", jsOr (jget body "totalDurationMs") (JVal.jnum 0)),
   ("applicationDurationMs", jsOr (jget body "applicationDurationMs") (JVal.jnum 0)),
   ("totalDocTimeMs", jsOr (jget body "totalDocTimeMs") (JVal.jnum 0)),
   ("totalDocOpens", jsOr (jget body "totalDocOpens") (JVal.jnum 0)),
   ("totalErrors", jsOr (jget body "totalErrors") (JVal.jnum 0)),
   ("errorCountsByPage", jsOr (jget body "errorCountsByPage") (JVal.jobj [])),
   ("errorCountsByField", jsOr (jget body "errorCountsByField") (JVal.jobj [])),
   ("pageTimings", jsOr (jget body "pageTimings") (JVal.jarr [])),
   ("docInteractions", jsOr (jget body "docInteractions") (JVal.jarr [])),
   ("formResponses", jsOr (jget body "formResponses") (JVal.jobj [])),
   ("total_duration_ms",
    jsOr (jget body "totalDurationMs") (jsOr (jget body "total_duration_ms") (JVal.jnum 0))),
   ("total_errors",
    jsOr (jget body "totalErrors") (jsOr (jget body "total_errors") (JVal.jnum 0)))]

/-- The snapshot update record built by `POST /api/session/snapshot`. Note it
carries `snapshot_at` but no `is_complete` and no `completed_at`. -/
def snapshotRecord (body : JObj) (now : String) : JObj :=
  [("session_id", (jget body "session_id").getD JVal.jnull),
   ("update_type", JVal.jstr "snapshot"),
   ("snapshot_at", JVal.jstr now),
   ("totalDurationMs", jsOr (jget body "totalDurationMs") (JVal.jnum 0)),
   ("applicationDurationMs", jsOr (jget body "applicationDurationMs") (JVal.jnum 0)),
   ("totalDocTimeMs", jsOr (jget body "totalDocTimeMs") (JVal.jnum 0)),
   ("totalDocOpens", jsOr (jget body "totalDocOpens") (JVal.jnum 0)),
   ("totalErrors", jsOr (jget body "totalErrors") (JVal.jnum 0)),
   ("errorCountsByPage", jsOr (jget body "errorCountsByPage") (JVal.jobj [])),
   ("errorCountsByField", jsOr (jget body "errorCountsByField") (JVal.jobj [])),
   ("pageTimings", jsOr (jget body "pageTimings") (JVal.jarr [])),
   ("docInteractions", jsOr (jget body "docInteractions") (JVal.jarr [])),
   ("formResponses", jsOr (jget body "formResponses") (JVal.jobj [])),
   ("total_duration_ms", jsOr (jget body "totalDurationMs") (JVal.jnum 0)),
   ("total_errors", jsOr (jget body "totalErrors") (JVal.jnum 0))]

/-- `appendJsonl` stamps each record with a server write timestamp:
`{ ...data, _written_at: new Date().toISOString() }`. -/
def stampWritten (o : JObj) (writtenAt : String) : JObj :=
  o ++ [("_written_at", JVal.jstr writtenAt)]

/-- The snapshot handler's effect on a cached index entry: the snapshot's
fields are assigned only when the cached session is not already complete. -/
def applySnapshotToIndex (entry : JObj) (snapshot : JObj) : JObj :=
  if truthyOpt (jget entry "is_complete") then entry
  else jassign entry snapshot

/-- A skippable submitted value: absent (`undefined`), `null`, or `''`. -/
def skipValue (v : Option JVal) : Prop :=
  v = none ∨ v = some JVal.jnull ∨ v = some (JVal.jstr "")

-- ===========================================================================
-- Theorems
-- ===========================================================================

theorem jget_append (a b : JObj) (k : String) :
    jget (a ++ b) k = (jget b k).or (jget a k) := by
  unfold jget
  rw [List.filter_append, List.getLast?_append]
  cases h : (List.filter (fun p => p.1 == k) b).getLast? <;> simp [h]

theorem aget_map_update {α : Type} (m : List (String × α)) (k k' : String) (f : α → α) :
    aget (m.map (fun p => if p.1 == k then (p.1, f p.2) else p)) k' =
      (m.find? (fun p => p.1 == k')).map (fun p => if p.1 == k then f p.2 else p.2) := by
  unfold aget
  rw [show (fun p => if p.1 == k then (p.1, f p.2) else p) =
        (fun p : String × α => (p.1, if p.1 == k then f p.2 else p.2)) from ?_]
  · rw [List.find?_map]
    have hpred : ((fun p : String × α => p.1 == k') ∘
        (fun p : String × α => (p.1, if p.1 == k then f p.2 else p.2))) =
        (fun p : String × α => p.1 == k') := by
      funext p; rfl
    rw [hpred, Option.map_map]
    rfl
  · funext p
    by_cases h : p.1 == k <;> simp [h]

theorem aget_upsertWith_self {α : Type} (m : List (String × α)) (k : String)
    (f : α → α) (init : α) :
    aget (upsertWith m k f init) k = some (((aget m k).map f).getD init) := by
  unfold upsertWith
  by_cases h : m.any (fun p => p.1 == k)
  · rw [if_pos h, aget_map_update]
    rw [List.any_eq_true] at h
    obtain ⟨x, hx, hpx⟩ := h
    have hsome : (m.find? (fun p => p.1 == k)).isSome := by
      rw [List.find?_isSome]; exact ⟨x, hx, hpx⟩
    obtain ⟨e, he⟩ := Option.isSome_iff_exists.mp hsome
    have hek := List.find?_some he
    simp only [beq_iff_eq] at hek
    simp [aget, he, hek]
  · rw [if_neg h]
    have hnone : m.find? (fun p => p.1 == k) = none := by
      rw [List.find?_eq_none]
      intro x hx hpx
      exact h (List.any_eq_true.mpr ⟨x, hx, hpx⟩)
    unfold aget
    rw [List.find?_append, hnone]
    simp [aget, hnone]

theorem aget_upsertWith_ne {α : Type} (m : List (String × α)) (k k' : String)
    (f : α → α) (init : α) (h : k' ≠ k) :
    aget (upsertWith m k f init) k' = aget m k' := by
  unfold upsertWith
  by_cases hany : m.any (fun p => p.1 == k)
  · rw [if_pos hany, aget_map_update]
    unfold aget
    cases he : m.find? (fun p => p.1 == k') with
    | none => rfl
    | some e =>
      have hek := List.find?_some he
      simp only [beq_iff_eq] at hek
      have : (e.1 == k) = false := by
        rw [beq_eq_false_iff_ne, hek]
        exact h
      simp [this]
      exact fun h2 => absurd (hek.symm.trans h2) h
  · rw [if_neg hany]
    unfold aget
    rw [List.find?_append]
    have hkk : (k == k') = false := by
      rw [beq_eq_false_iff_ne]
      exact fun hkk => h hkk.symm
    have : List.find? (fun p => p.1 == k') [(k, init)] = none := by
      simp [List.find?, hkk]
    rw [this]
    simp

theorem keys_upsertWith_of_mem {α : Type} (m : List (String × α)) (k : String)
    (f : α → α) (init : α) (h : m.any (fun p => p.1 == k)) :
    (upsertWith m k f init).map (fun p => p.1) = m.map (fun p => p.1) := by
  unfold upsertWith
  rw [if_pos h, List.map_map]
  congr 1
  funext p
  by_cases hp : p.1 = k <;> simp [hp]

theorem keys_upsertWith_of_not_mem {α : Type} (m : List (String × α)) (k : String)
    (f : α → α) (init : α) (h : ¬ m.any (fun p => p.1 == k)) :
    (upsertWith m k f init).map (fun p => p.1) = m.map (fun p => p.1) ++ [k] := by
  unfold upsertWith
  rw [if_neg h, List.map_append]
  rfl

-- ---------------------------------------------------------------------------
-- C2: per-field last-write-wins merging.
-- ---------------------------------------------------------------------------

theorem foldl_applyUpdate_singleton (us : List JObj) (k : String) (c : JObj)
    (h : ∀ u ∈ us, sessionKey u = k) :
    us.foldl applyUpdate [(k, c)] = [(k, us.foldl jassign c)] := by
  induction us generalizing c with
  | nil => rfl
  | cons u rest ih =>
    have hk : sessionKey u = k := h u (by simp)
    have hstep : applyUpdate [(k, c)] u = [(k, jassign c u)] := by
      simp [applyUpdate, hk]
    rw [List.foldl_cons, hstep, List.foldl_cons]
    exact ih (jassign c u) (fun v hv => h v (by simp [hv]))

/-- Claim C2: for a creation record followed by any sequence of update
records with the same session id, `getMergedSessions` produces exactly the
creation record with every update `Object.assign`ed onto it in append order
(shallow per-update merge); in particular after update A `{x:1, y:1}` then
update B `{x:2}` the merged record reads `x = 2` and `y = 1` — B's absence
of `y` does not clobber A's `y`. -/
theorem claim_C2_per_field_last_write_wins :
    (∀ (c : JObj) (us : List JObj), (∀ u ∈ us, sessionKey u = sessionKey c) →
      getMergedSessions [c] us = [us.foldl jassign c]) ∧
    (jget ((getMergedSessions
        [[("session_id", JVal.jstr "s1")]]
        [[("session_id", JVal.jstr "s1"), ("x", JVal.jnum 1), ("y", JVal.jnum 1)],
         [("session_id", JVal.jstr "s1"), ("x", JVal.jnum 2)]]).headD []) "x"
      = some (JVal.jnum 2) ∧
     jget ((getMergedSessions
        [[("session_id", JVal.jstr "s1")]]
        [[("session_id", JVal.jstr "s1"), ("x", JVal.jnum 1), ("y", JVal.jnum 1)],
         [("session_id", JVal.jstr "s1"), ("x", JVal.jnum 2)]]).headD []) "y"
      = some (JVal.jnum 1)) := by
  constructor
  · intro c us h
    unfold getMergedSessions
    have hinit : [c].foldl insertSession [] = [(sessionKey c, c)] := rfl
    rw [hinit, foldl_applyUpdate_singleton us (sessionKey c) c h]
    rfl
  · constructor <;> rfl

/-- Witness for C2: the general clause applied to the concrete A/B example. -/
theorem claim_C2_witness :
    getMergedSessions [[("session_id", JVal.jstr "s1")]]
      [[("session_id", JVal.jstr "s1"), ("x", JVal.jnum 1)]] =
      [[("session_id", JVal.jstr "s1")] ++
        [("session_id", JVal.jstr "s1"), ("x", JVal.jnum 1)]] :=
  claim_C2_per_field_last_write_wins.1
    [("session_id", JVal.jstr "s1")]
    [[("session_id", JVal.jstr "s1"), ("x", JVal.jnum 1)]]
    (by intro u hu; simp at hu; subst hu; rfl)

-- ---------------------------------------------------------------------------
-- C7: orphan protection in getMergedSessions.
-- ---------------------------------------------------------------------------

theorem mem_upsertWith {α : Type} {m : List (String × α)} {k : String}
    {f : α → α} {init : α} {e : String × α} (he : e ∈ upsertWith m k f init) :
    e ∈ m ∨ (∃ p ∈ m, p.1 = k ∧ e = (k, f p.2)) ∨ e = (k, init) := by
  unfold upsertWith at he
  by_cases h : m.any (fun p => p.1 == k)
  · rw [if_pos h] at he
    obtain ⟨p, hp, hpe⟩ := List.mem_map.mp he
    by_cases hpk : p.1 = k
    · right; left
      refine ⟨p, hp, hpk, ?_⟩
      rw [← hpe]
      simp [hpk]
    · left
      rw [← hpe]
      simp [hpk]
      exact hp
  · rw [if_neg h] at he
    rcases List.mem_append.mp he with h1 | h1
    · exact Or.inl h1
    · right; right
      simpa using h1

theorem mem_foldl_insertSession {ss : List JObj} {init : List (String × JObj)}
    {e : String × JObj} (he : e ∈ ss.foldl insertSession init) :
    e ∈ init ∨ ∃ s ∈ ss, e = (sessionKey s, s) := by
  induction ss generalizing init with
  | nil => exact Or.inl he
  | cons s t ih =>
    rw [List.foldl_cons] at he
    rcases ih he with h1 | h1
    · rcases mem_upsertWith h1 with h2 | h2 | h2
      · exact Or.inl h2
      · obtain ⟨p, _, _, hpe⟩ := h2
        exact Or.inr ⟨s, by simp, hpe⟩
      · exact Or.inr ⟨s, by simp, h2⟩
    · obtain ⟨s', hs', he'⟩ := h1
      exact Or.inr ⟨s', by simp [hs'], he'⟩

theorem mem_applyUpdate {m : List (String × JObj)} {u : JObj}
    {e : String × JObj} (he : e ∈ applyUpdate m u) :
    ∃ p ∈ m, e = p ∨ (p.1 = sessionKey u ∧ e = (p.1, jassign p.2 u)) := by
  unfold applyUpdate at he
  obtain ⟨p, hp, hpe⟩ := List.mem_map.mp he
  refine ⟨p, hp, ?_⟩
  by_cases hpk : p.1 = sessionKey u
  · right
    refine ⟨hpk, ?_⟩
    rw [← hpe]
    simp [hpk]
  · left
    rw [← hpe]
    simp [hpk]

theorem applyUpdate_keys (m : List (String × JObj)) (u : JObj) :
    (applyUpdate m u).map (fun p => p.1) = m.map (fun p => p.1) := by
  unfold applyUpdate
  rw [List.map_map]
  congr 1
  funext p
  by_cases hp : p.1 = sessionKey u <;> simp [hp]

theorem foldl_applyUpdate_keys (us : List JObj) (m : List (String × JObj)) :
    (us.foldl applyUpdate m).map (fun p => p.1) = m.map (fun p => p.1) := by
  induction us generalizing m with
  | nil => rfl
  | cons u t ih => rw [List.foldl_cons, ih, applyUpdate_keys]

theorem applyUpdate_of_no_key (m : List (String × JObj)) (u : JObj)
    (h : ∀ k ∈ m.map (fun p => p.1), k ≠ sessionKey u) :
    applyUpdate m u = m := by
  unfold applyUpdate
  induction m with
  | nil => rfl
  | cons p t ih =>
    have hp : p.1 ≠ sessionKey u := h p.1 (by simp)
    rw [List.map_cons, ih (fun k hk => h k (by simp at hk ⊢; exact Or.inr hk))]
    simp [hp]

theorem sessionKey_jassign_entry {v u : JObj} {k : String}
    (hv : sessionKey v = k) (hu : sessionKey u = k) :
    sessionKey (jassign v u) = k := by
  unfold sessionKey at *
  unfold jassign
  rw [jget_append]
  cases hjb : jget u "session_id" with
  | none => simpa using hv
  | some b => rw [hjb] at hu; simpa using hu

theorem mem_foldl_applyUpdate {us : List JObj} {m : List (String × JObj)}
    {e : String × JObj} (he : e ∈ us.foldl applyUpdate m)
    (inv : ∀ p ∈ m, sessionKey p.2 = p.1) :
    sessionKey e.2 = e.1 ∧ e.1 ∈ m.map (fun p => p.1) := by
  induction us generalizing m with
  | nil =>
    exact ⟨inv e he, List.mem_map.mpr ⟨e, he, rfl⟩⟩
  | cons u t ih =>
    rw [List.foldl_cons] at he
    have inv' : ∀ p ∈ applyUpdate m u, sessionKey p.2 = p.1 := by
      intro p hp
      obtain ⟨q, hq, hcase⟩ := mem_applyUpdate hp
      rcases hcase with h1 | ⟨hk, h1⟩
      · rw [h1]; exact inv q hq
      · rw [h1]
        exact sessionKey_jassign_entry (inv q hq) hk.symm
    have := ih he inv'
    rw [applyUpdate_keys] at this
    exact this

/-- Claim C7: every merged session traces back to a creation record, and an
update record whose session id matches no creation record has no effect on
the merged output — it neither creates a session nor alters an existing one. -/
theorem claim_C7_orphan_protection :
    (∀ (sessions us1 us2 : List JObj) (u : JObj),
        (∀ c ∈ sessions, sessionKey c ≠ sessionKey u) →
        getMergedSessions sessions (us1 ++ u :: us2) =
          getMergedSessions sessions (us1 ++ us2)) ∧
    (∀ (sessions updates : List JObj) (o : JObj),
        o ∈ getMergedSessions sessions updates →
        ∃ c ∈ sessions, sessionKey o = sessionKey c) := by
  constructor
  · intro sessions us1 us2 u h
    unfold getMergedSessions
    rw [List.foldl_append, List.foldl_append, List.foldl_cons]
    have hskip : applyUpdate (us1.foldl applyUpdate (sessions.foldl insertSession [])) u
        = us1.foldl applyUpdate (sessions.foldl insertSession []) := by
      apply applyUpdate_of_no_key
      intro k hk
      rw [foldl_applyUpdate_keys] at hk
      obtain ⟨e, he, hke⟩ := List.mem_map.mp hk
      rcases mem_foldl_insertSession he with h1 | ⟨s, hs, hes⟩
      · simp at h1
      · rw [← hke, hes]
        exact h s hs
    rw [hskip]
  · intro sessions updates o ho
    unfold getMergedSessions at ho
    obtain ⟨e, he, hoe⟩ := List.mem_map.mp ho
    have inv : ∀ p ∈ sessions.foldl insertSession ([] : List (String × JObj)),
        sessionKey p.2 = p.1 := by
      intro p hp
      rcases mem_foldl_insertSession hp with h1 | ⟨s, _, hps⟩
      · simp at h1
      · rw [hps]
    obtain ⟨hkey, hmem⟩ := mem_foldl_applyUpdate he inv
    obtain ⟨p, hp, hpe⟩ := List.mem_map.mp hmem
    rcases mem_foldl_insertSession hp with h1 | ⟨s, hs, hps⟩
    · simp at h1
    · refine ⟨s, hs, ?_⟩
      rw [← hoe, hkey, ← hpe, hps]

/-- Witness for C7: an orphan update really is dropped, and the output of a
one-creation merge traces to that creation. -/
theorem claim_C7_witness :
    getMergedSessions [[("session_id", JVal.jstr "s1")]]
      ([] ++ [("session_id", JVal.jstr "ghost"), ("x", JVal.jnum 5)] :: []) =
      getMergedSessions [[("session_id", JVal.jstr "s1")]] ([] ++ []) :=
  claim_C7_orphan_protection.1 [[("session_id", JVal.jstr "s1")]] [] []
    [("session_id", JVal.jstr "ghost"), ("x", JVal.jnum 5)]
    (by intro c hc; simp at hc; subst hc; decide)

-- ---------------------------------------------------------------------------
-- C8: corrupt-line tolerance of readJsonl.
-- ---------------------------------------------------------------------------

/-- Claim C8: reading a log returns exactly the successfully-parsed records
(all records this server writes are JSON objects, hence truthy) in original
line order; a line that fails to parse is silently skipped without aborting
or altering the reading of the other lines; and `readJsonl` is total — no
error surfaces to the caller. -/
theorem claim_C8_corrupt_line_tolerance :
    (∀ (parse : String → Option JVal) (l1 l2 : List String) (bad : String),
        parse bad = none →
        readLines parse (l1 ++ bad :: l2) = readLines parse (l1 ++ l2)) ∧
    (∀ (parse : String → Option JVal) (lines : List String),
        (∀ l ∈ lines, ∀ v, parse l = some v → truthy v = true) →
        readLines parse lines = lines.filterMap parse) ∧
    (∀ (parse : String → Option JVal) (c : String),
        readJsonl parse (some c) =
          if c.trim = "" then [] else readLines parse (c.trim.splitOn "\n")) := by
  refine ⟨?_, ?_, ?_⟩
  · intro parse l1 l2 bad h
    unfold readLines
    rw [List.map_append, List.map_append, List.map_cons, List.filter_append,
      List.filter_append, List.filter_cons]
    rw [h]
    simp [truthy]
  · intro parse lines h
    induction lines with
    | nil => rfl
    | cons l t ih =>
      have ht : ∀ l' ∈ t, ∀ v, parse l' = some v → truthy v = true :=
        fun l' hl' v hv => h l' (by simp [hl']) v hv
      unfold readLines at ih ⊢
      rw [List.map_cons, List.filter_cons, List.filterMap_cons]
      cases hp : parse l with
      | none => simpa [truthy] using ih ht
      | some v =>
        have hv : truthy v = true := h l (by simp) v hp
        simp only [Option.getD_some, hv, if_true]
        rw [ih ht]
  · intro parse c
    rfl

/-- Witness for C8: a concrete corrupt line between two good lines is
skipped without disturbing the rest of the read. -/
theorem claim_C8_witness :
    readLines (fun s => if s == "ok" then some (JVal.jobj [("a", JVal.jnum 1)]) else none)
        (["ok"] ++ "corrupt" :: ["ok"]) =
      readLines (fun s => if s == "ok" then some (JVal.jobj [("a", JVal.jnum 1)]) else none)
        (["ok"] ++ ["ok"]) :=
  claim_C8_corrupt_line_tolerance.1
    (fun s => if s == "ok" then some (JVal.jobj [("a", JVal.jnum 1)]) else none)
    ["ok"] ["ok"] "corrupt" (by rfl)

-- ---------------------------------------------------------------------------
-- C9: the CSV time cell keeps only the LAST visit's duration.
-- ---------------------------------------------------------------------------

theorem aget_foldl_overwrite (pts : List (String × Int)) (m : List (String × Int))
    (pid : String) :
    aget (pts.foldl (fun m pt => upsertWith m pt.1 (fun _ => pt.2) pt.2) m) pid =
      (((pts.filter (fun pt => pt.1 == pid)).getLast?).map (fun pt => pt.2)).or
        (aget m pid) := by
  induction pts generalizing m with
  | nil => simp
  | cons pt t ih =>
    rw [List.foldl_cons, ih, List.filter_cons]
    by_cases hp : pt.1 = pid
    · have hself : aget (upsertWith m pt.1 (fun _ => pt.2) pt.2) pid = some pt.2 := by
        rw [hp, aget_upsertWith_self]
        cases h2 : aget m pid <;> simp
      rw [hself]
      have hpb : (pt.1 == pid) = true := by rw [beq_iff_eq]; exact hp
      rw [hpb]
      simp only [if_true]
      rw [show (pt :: List.filter (fun pt => pt.1 == pid) t) =
            [pt] ++ List.filter (fun pt => pt.1 == pid) t from rfl,
        List.getLast?_append]
      cases (List.filter (fun pt => pt.1 == pid) t).getLast? <;> simp
    · have hpb : (pt.1 == pid) = false := by rw [beq_eq_false_iff_ne]; exact hp
      rw [hpb]
      simp only [Bool.false_eq_true, if_false]
      rw [aget_upsertWith_ne _ _ _ _ _ (fun hbad => hp hbad.symm)]

/-- Claim C9: the per-session CSV `time_<pid>_ms` cell is the `durationMs`
of the LAST pageTimings entry for that page (later entries overwrite earlier
ones in the timing map), not the sum over revisits — unlike the stats
pipeline, whose `sessionPageTotals` sums a session's visits per page. -/
theorem claim_C9_csv_time_cell_last_visit :
    (∀ (pts : List (String × Int)) (pid : String),
        csvTimeCell pts pid =
          ((pts.filter (fun pt => pt.1 == pid)).getLast?).map (fun pt => pt.2)) ∧
    (csvTimeCell [("application_review", 3000), ("application_review", 4000)]
        "application_review" = some 4000 ∧
     aget (sessionPageTotals [("application_review", 3000), ("application_review", 4000)])
        "application_review" = some 7000 ∧
     csvTimeCell [("application_review", 3000), ("application_review", 4000)]
        "application_review" ≠
       aget (sessionPageTotals [("application_review", 3000), ("application_review", 4000)])
        "application_review") := by
  refine ⟨?_, by decide, by decide, by decide⟩
  intro pts pid
  unfold csvTimeCell timingMapOf
  rw [aget_foldl_overwrite]
  rw [show aget ([] : List (String × Int)) pid = none from rfl, Option.or_none]

-- ---------------------------------------------------------------------------
-- C1: completion-status precedence.
-- ---------------------------------------------------------------------------

/-- Claim C1: `getCompletionStatus` applies its rules first-match-wins in the
order ineligible, complete, submitted, dropped, incomplete; in particular a
session whose flattened responses say `is_eligible = 'no'` while
`is_complete` is true classifies as `ineligible` (not `complete`), and a
session whose `consent_given` is falsy never classifies as `dropped`. -/
theorem claim_C1_completion_status_precedence :
    (∀ s : JObj, checkIneligible s = true → getCompletionStatus s = "ineligible") ∧
    (∀ s : JObj, checkIneligible s = false → truthyOpt (jget s "is_complete") = true →
        getCompletionStatus s = "complete") ∧
    (∀ s : JObj, checkIneligible s = false → truthyOpt (jget s "is_complete") = false →
        hasReachedSubmission s = true → getCompletionStatus s = "submitted") ∧
    (∀ s : JObj, checkIneligible s = false → truthyOpt (jget s "is_complete") = false →
        hasReachedSubmission s = false → truthyOpt (jget s "consent_given") = true →
        getCompletionStatus s = "dropped") ∧
    (∀ s : JObj, checkIneligible s = false → truthyOpt (jget s "is_complete") = false →
        hasReachedSubmission s = false → truthyOpt (jget s "consent_given") = false →
        getCompletionStatus s = "incomplete") ∧
    (getCompletionStatus
        [("session_id", JVal.jstr "s1"), ("is_complete", JVal.jbool true),
         ("formResponses", JVal.jobj
            [("eligibility_rules", JVal.jobj [("is_eligible", JVal.jstr "no")])])]
      = "ineligible") ∧
    (∀ s : JObj, truthyOpt (jget s "consent_given") = false →
        getCompletionStatus s ≠ "dropped") := by
  refine ⟨?_, ?_, ?_, ?_, ?_, by decide, ?_⟩
  · intro s h1; simp [getCompletionStatus, h1]
  · intro s h1 h2; simp [getCompletionStatus, h1, h2]
  · intro s h1 h2 h3; simp [getCompletionStatus, h1, h2, h3]
  · intro s h1 h2 h3 h4; simp [getCompletionStatus, h1, h2, h3, h4]
  · intro s h1 h2 h3 h4; simp [getCompletionStatus, h1, h2, h3, h4]
  · intro s h
    unfold getCompletionStatus
    split_ifs with h1 h2 h3 h4
    · decide
    · decide
    · decide
    · rw [h] at h4; exact absurd h4 (by decide)
    · decide

/-- Witness for C1: a session with `consent_given = false` and a page index
past the submission threshold is not classified `dropped`. -/
theorem claim_C1_witness :
    getCompletionStatus
        [("session_id", JVal.jstr "s2"), ("consent_given", JVal.jbool false),
         ("currentPageIndex", JVal.jnum 14)] ≠ "dropped" :=
  claim_C1_completion_status_precedence.2.2.2.2.2.2
    [("session_id", JVal.jstr "s2"), ("consent_given", JVal.jbool false),
     ("currentPageIndex", JVal.jnum 14)] (by rfl)

-- ---------------------------------------------------------------------------
-- C6: block randomizer bookkeeping exclusions and balanced-deficit fallback.
-- ---------------------------------------------------------------------------

/-- Claim C6: assignments that are forced or whose condition code is outside
the valid condition set are excluded from the randomizer's bookkeeping
(inserting such a session anywhere in the history changes nothing); and when
the position within the block is non-zero and the cached block is absent or
inconsistent with the trailing recorded non-forced assignments, the next
assignment is the condition with strictly fewer prior non-forced
assignments, ties decided by the random coin. -/
theorem claim_C6_block_randomizer_fallback :
    (∀ (draws : Nat → Nat) (coin : Bool) (cache : Option (List String))
        (pre post : List JObj) (s : JObj), orgValid s = false →
        blockRandomize draws coin cache (pre ++ s :: post) =
          blockRandomize draws coin cache (pre ++ post)) ∧
    (∀ (draws : Nat → Nat) (coin : Bool) (cache : Option (List String))
        (existing : List JObj),
        (assignedOf existing).length % ESTIMATION_BLOCK_SIZE ≠ 0 →
        cacheConsistent cache (assignedOf existing) = false →
        ((((assignedOf existing).filter (fun c => c == "self")).length <
            ((assignedOf existing).filter (fun c => c == "average")).length →
          (blockRandomize draws coin cache existing).1 = "self") ∧
         (((assignedOf existing).filter (fun c => c == "average")).length <
            ((assignedOf existing).filter (fun c => c == "self")).length →
          (blockRandomize draws coin cache existing).1 = "average") ∧
         (((assignedOf existing).filter (fun c => c == "self")).length =
            ((assignedOf existing).filter (fun c => c == "average")).length →
          (blockRandomize draws coin cache existing).1 =
            (if coin then "self" else "average")))) := by
  constructor
  · intro draws coin cache pre post s h
    unfold blockRandomize assignedOf
    rw [List.filter_append, List.filter_append, List.filter_cons, h]
    simp
  · intro draws coin cache existing hpos hcache
    have hposb : ((assignedOf existing).length % ESTIMATION_BLOCK_SIZE == 0) = false := by
      rw [beq_eq_false_iff_ne]
      exact hpos
    unfold blockRandomize blockRandomizeBody
    simp only [hposb, Bool.false_eq_true, if_false, hcache]
    refine ⟨?_, ?_, ?_⟩
    · intro hlt
      rw [if_pos hlt]
    · intro hlt
      rw [if_neg (by omega), if_pos hlt]
    · intro heq
      rw [if_neg (by omega), if_neg (by omega)]

/-- Witness for C6: one recorded non-forced `self` assignment, no cached
block — the fallback assigns `average`, the under-represented condition. -/
theorem claim_C6_witness :
    (blockRandomize (fun _ => 0) true none
        [[("session_id", JVal.jstr "s1"), ("condition_code", JVal.jstr "self")]]).1
      = "average" :=
  ((claim_C6_block_randomizer_fallback.2 (fun _ => 0) true none
      [[("session_id", JVal.jstr "s1"), ("condition_code", JVal.jstr "self")]]
      (by decide) (by decide)).2.1) (by decide)

-- ---------------------------------------------------------------------------
-- C4/C5: answer-key scoring decomposition.
-- ---------------------------------------------------------------------------

theorem foldl_scoreField_errors (entries : List (String × Rule)) (responses : JObj)
    (acc : ScoreResult) :
    (entries.foldl (scoreField responses) acc).errors =
      acc.errors ++ entries.flatMap (fun e => (fieldResult responses e.1 e.2).1) := by
  induction entries generalizing acc with
  | nil => simp
  | cons e t ih =>
    rw [List.foldl_cons, ih, List.flatMap_cons]
    simp [scoreField]

theorem foldl_scoreField_overdoc (entries : List (String × Rule)) (responses : JObj)
    (acc : ScoreResult) :
    (entries.foldl (scoreField responses) acc).overDocumentation =
      acc.overDocumentation ++
        entries.flatMap (fun e => (fieldResult responses e.1 e.2).2) := by
  induction entries generalizing acc with
  | nil => simp
  | cons e t ih =>
    rw [List.foldl_cons, ih, List.flatMap_cons]
    simp [scoreField]

theorem foldl_scoreField_totalErrors (entries : List (String × Rule)) (responses : JObj)
    (acc : ScoreResult) :
    (entries.foldl (scoreField responses) acc).totalErrors =
      acc.totalErrors +
        (entries.flatMap (fun e => (fieldResult responses e.1 e.2).1)).length := by
  induction entries generalizing acc with
  | nil => simp
  | cons e t ih =>
    rw [List.foldl_cons, ih, List.flatMap_cons]
    simp [scoreField]
    omega

theorem foldl_scoreField_wouldReject (entries : List (String × Rule)) (responses : JObj)
    (acc : ScoreResult) :
    (entries.foldl (scoreField responses) acc).wouldReject = acc.wouldReject := by
  induction entries generalizing acc with
  | nil => rfl
  | cons e t ih =>
    rw [List.foldl_cons, ih]
    rfl

theorem fieldResult_empty (f : String) (rule : Rule) :
    fieldResult [] f rule = ([], []) := rfl

theorem scoreApplication_errors (s : JObj) :
    (scoreApplication s).errors =
      ANSWER_KEY.flatMap (fun e => (fieldResult (responsesOf s) e.1 e.2).1) := by
  unfold scoreApplication responsesOf
  cases hfr : jget s "formResponses" with
  | none =>
    have hF : ∀ e : String × Rule, fieldResult [] e.1 e.2 = ([], []) := fun _ => rfl
    simp [emptyScore, hF]
  | some fr =>
    by_cases ht : truthy fr
    · simp only [ht, if_true]
      rw [foldl_scoreField_errors]
      rfl
    · have hF : ∀ e : String × Rule, fieldResult [] e.1 e.2 = ([], []) := fun _ => rfl
      simp [ht, emptyScore, hF]

theorem scoreApplication_overdoc (s : JObj) :
    (scoreApplication s).overDocumentation =
      ANSWER_KEY.flatMap (fun e => (fieldResult (responsesOf s) e.1 e.2).2) := by
  unfold scoreApplication responsesOf
  cases hfr : jget s "formResponses" with
  | none =>
    have hF : ∀ e : String × Rule, fieldResult [] e.1 e.2 = ([], []) := fun _ => rfl
    simp [emptyScore, hF]
  | some fr =>
    by_cases ht : truthy fr
    · simp only [ht, if_true]
      rw [foldl_scoreField_overdoc]
      rfl
    · have hF : ∀ e : String × Rule, fieldResult [] e.1 e.2 = ([], []) := fun _ => rfl
      simp [ht, emptyScore, hF]

theorem scoreApplication_totalErrors (s : JObj) :
    (scoreApplication s).totalErrors = (scoreApplication s).errors.length := by
  rw [scoreApplication_errors]
  unfold scoreApplication
  cases hfr : jget s "formResponses" with
  | none =>
    have hF : responsesOf s = [] := by
      unfold responsesOf
      rw [hfr]
    have hnil : ANSWER_KEY.flatMap (fun e => (fieldResult (responsesOf s) e.1 e.2).1) = [] :=
      List.flatMap_eq_nil_iff.mpr (fun e _ => by rw [hF]; rfl)
    rw [hnil]
    rfl
  | some fr =>
    by_cases ht : truthy fr
    · simp only [ht, if_true]
      rw [foldl_scoreField_totalErrors]
      have hresp : responsesOf s = flattenResponses fr := by
        unfold responsesOf
        rw [hfr]
        simp [ht]
      rw [hresp]
      simp [emptyScore]
    · have hF : responsesOf s = [] := by
        unfold responsesOf
        rw [hfr]
        simp [ht]
      have hnil : ANSWER_KEY.flatMap (fun e => (fieldResult (responsesOf s) e.1 e.2).1) = [] :=
        List.flatMap_eq_nil_iff.mpr (fun e _ => by rw [hF]; rfl)
      rw [hnil]
      simp [ht, emptyScore]

theorem scoreApplication_wouldReject (s : JObj) :
    (scoreApplication s).wouldReject = decide (0 < (scoreApplication s).totalErrors) := by
  unfold scoreApplication
  cases hfr : jget s "formResponses" with
  | none => rfl
  | some fr =>
    by_cases ht : truthy fr
    · simp [ht]
    · simp [ht, emptyScore]

theorem fieldResult_skip (r : JObj) (f : String) (rule : Rule)
    (h : skipValue (jget r f)) : fieldResult r f rule = ([], []) := by
  unfold fieldResult
  rcases h with h | h | h <;> (rw [h]; try rfl)

theorem fieldResult_error_field (r : JObj) (f : String) (rule : Rule)
    (e : ScoreError) (he : e ∈ (fieldResult r f rule).1) : e.field = f := by
  unfold fieldResult at he
  split at he
  · simp at he
  · simp at he
  · simp at he
  · rename_i v _ _ _
    cases rule with
    | mustInclude correct =>
      dsimp only at he
      split at he
      · simp at he
      · simp at he
        rw [he]
    | oneOf correct =>
      dsimp only at he
      split at he
      · simp at he
      · simp at he
        rw [he]
    | custom correct cmp =>
      dsimp only at he
      split at he
      · simp at he
      · simp at he
        rw [he]
    | simple correct normalize =>
      dsimp only at he
      split at he
      · simp at he
      · simp at he
        rw [he]

theorem fieldResult_overdoc_field (r : JObj) (f : String) (rule : Rule)
    (o : OverDoc) (ho : o ∈ (fieldResult r f rule).2) : o.field = f := by
  unfold fieldResult at ho
  split at ho
  · simp at ho
  · simp at ho
  · simp at ho
  · rename_i v _ _ _
    cases rule with
    | mustInclude correct =>
      dsimp only at ho
      split at ho
      · simp at ho
      · simp at ho
        rw [ho]
    | oneOf correct => simp at ho
    | custom correct cmp => simp at ho
    | simple correct normalize => simp at ho

theorem filter_flatMap_by_field {β : Type} (entries : List (String × Rule))
    (g : String → Rule → List β) (fieldOf : β → String)
    (hg : ∀ a rule b, b ∈ g a rule → fieldOf b = a) (f : String) :
    ((entries.flatMap (fun e => g e.1 e.2)).filter (fun b => fieldOf b == f)) =
      entries.flatMap (fun e => if e.1 = f then g e.1 e.2 else []) := by
  induction entries with
  | nil => rfl
  | cons e t ih =>
    rw [List.flatMap_cons, List.filter_append, ih, List.flatMap_cons]
    congr 1
    by_cases hef : e.1 = f
    · rw [if_pos hef, List.filter_eq_self.mpr]
      intro x hx
      rw [hg e.1 e.2 x hx, hef]
      exact beq_self_eq_true f
    · rw [if_neg hef, List.filter_eq_nil_iff.mpr]
      intro x hx
      rw [hg e.1 e.2 x hx]
      simp [hef]

/-- Claim C4: a submitted value of `''`, `null`, or `undefined` is never
counted as an error for any answer-key field — the field is skipped, not
scored as wrong; and a must-include multi-select field missing one or more
required values yields exactly ONE error entry whose description names
exactly the missing value(s). -/
theorem claim_C4_scoring_skip_rule :
    (∀ (s : JObj) (f : String), skipValue (jget (responsesOf s) f) →
        (scoreApplication s).errors.filter (fun e => e.field == f) = []) ∧
    (∀ (s : JObj) (xs : List JVal),
        jget (responsesOf s) "eligibility_documents" = some (JVal.jarr xs) →
        ELIG_REQUIRED.filter (fun req => !(xs.any (fun x => jvalEqStr x req))) ≠ [] →
        (scoreApplication s).errors.filter
            (fun e => e.field == "eligibility_documents") =
          [⟨"eligibility_documents", JVal.jstr (joinVals ", " xs),
            JVal.jstr (String.intercalate ", " ELIG_REQUIRED),
            "Missing required document(s): " ++ String.intercalate ", "
              (ELIG_REQUIRED.filter
                (fun req => !(xs.any (fun x => jvalEqStr x req))))⟩]) := by
  constructor
  · intro s f h
    rw [scoreApplication_errors,
      filter_flatMap_by_field ANSWER_KEY _ ScoreError.field
        (fun a rule b hb => fieldResult_error_field _ a rule b hb) f]
    apply List.flatMap_eq_nil_iff.mpr
    intro e _
    by_cases hef : e.1 = f
    · rw [if_pos hef]
      rw [fieldResult_skip (responsesOf s) e.1 e.2 (hef ▸ h)]
    · rw [if_neg hef]
  · intro s xs hv hmiss
    rw [scoreApplication_errors,
      filter_flatMap_by_field ANSWER_KEY _ ScoreError.field
        (fun a rule b hb => fieldResult_error_field _ a rule b hb) _]
    simp only [ANSWER_KEY, List.flatMap_cons, List.flatMap_nil]
    norm_num
    unfold fieldResult
    rw [hv]
    simp [hmiss]

/-- Witness for C4: the empty session has no responses, so every field is
skipped and no error entry is produced for it. -/
theorem claim_C4_witness :
    (scoreApplication []).errors.filter (fun e => e.field == "first_name") = [] :=
  claim_C4_scoring_skip_rule.1 [] "first_name" (Or.inl rfl)

/-- Claim C5: a must-include submission containing all required values plus
extras scores zero correctness errors for that field and reports one
over-documentation entry whose `extraDocs` are exactly the extra values; on
the concrete example with the three required eligibility documents plus
`water_bill`, the extras are exactly `['water_bill']`; and `wouldReject` is
true iff `totalErrors > 0`. -/
theorem claim_C5_over_documentation :
    (∀ (s : JObj) (xs : List JVal),
        jget (responsesOf s) "eligibility_documents" = some (JVal.jarr xs) →
        (∀ req ∈ ELIG_REQUIRED, xs.any (fun x => jvalEqStr x req) = true) →
        (scoreApplication s).errors.filter
            (fun e => e.field == "eligibility_documents") = [] ∧
        (scoreApplication s).overDocumentation.filter
            (fun o => o.field == "eligibility_documents") =
          (if (xs.filter (fun x =>
                !(match x with
                  | JVal.jstr t => ELIG_REQUIRED.contains t
                  | _ => false))).isEmpty
           then []
           else [⟨"eligibility_documents",
                  xs.filter (fun x =>
                    !(match x with
                      | JVal.jstr t => ELIG_REQUIRED.contains t
                      | _ => false)),
                  xs.length, ELIG_REQUIRED.length⟩])) ∧
    ((scoreApplication
        [("formResponses", JVal.jobj [("doc_upload_eligibility", JVal.jobj
          [("eligibility_documents", JVal.jarr
            [JVal.jstr "vehicle_registration", JVal.jstr "insurance_certificate",
             JVal.jstr "technical_inspection", JVal.jstr "water_bill"])])])]).errors = [] ∧
     (scoreApplication
        [("formResponses", JVal.jobj [("doc_upload_eligibility", JVal.jobj
          [("eligibility_documents", JVal.jarr
            [JVal.jstr "vehicle_registration", JVal.jstr "insurance_certificate",
             JVal.jstr "technical_inspection", JVal.jstr "water_bill"])])])]).overDocumentation =
       [⟨"eligibility_documents", [JVal.jstr "water_bill"], 4, 3⟩]) ∧
    (∀ s : JObj, (scoreApplication s).wouldReject = true ↔
        0 < (scoreApplication s).totalErrors) := by
  refine ⟨?_, ⟨by rfl, by rfl⟩, ?_⟩
  · intro s xs hv hall
    have hmiss : ELIG_REQUIRED.filter
        (fun req => !(xs.any (fun x => jvalEqStr x req))) = [] :=
      List.filter_eq_nil_iff.mpr (fun req hreq => by rw [hall req hreq]; simp)
    constructor
    · rw [scoreApplication_errors,
        filter_flatMap_by_field ANSWER_KEY _ ScoreError.field
          (fun a rule b hb => fieldResult_error_field _ a rule b hb) _]
      simp only [ANSWER_KEY, List.flatMap_cons, List.flatMap_nil]
      norm_num
      unfold fieldResult
      rw [hv]
      simp [hmiss]
    · rw [scoreApplication_overdoc,
        filter_flatMap_by_field ANSWER_KEY _ OverDoc.field
          (fun a rule b hb => fieldResult_overdoc_field _ a rule b hb) _]
      simp only [ANSWER_KEY, List.flatMap_cons, List.flatMap_nil]
      norm_num
      unfold fieldResult
      rw [hv]
      split <;> simp_all
  · intro s
    rw [scoreApplication_wouldReject]
    simp

/-- Witness for C5: the concrete over-documented submission, through the
general clause. -/
theorem claim_C5_witness :
    (scoreApplication
        [("formResponses", JVal.jobj [("doc_upload_eligibility", JVal.jobj
          [("eligibility_documents", JVal.jarr
            [JVal.jstr "vehicle_registration", JVal.jstr "insurance_certificate",
             JVal.jstr "technical_inspection", JVal.jstr "water_bill"])])])]).errors.filter
        (fun e => e.field == "eligibility_documents") = [] :=
  (claim_C5_over_documentation.1
    [("formResponses", JVal.jobj [("doc_upload_eligibility", JVal.jobj
      [("eligibility_documents", JVal.jarr
        [JVal.jstr "vehicle_registration", JVal.jstr "insurance_certificate",
         JVal.jstr "technical_inspection", JVal.jstr "water_bill"])])])]
    [JVal.jstr "vehicle_registration", JVal.jstr "insurance_certificate",
     JVal.jstr "technical_inspection", JVal.jstr "water_bill"]
    (by rfl) (by decide)).1

-- ---------------------------------------------------------------------------
-- C3: per-session-first averaging in the stats pipeline.
-- ---------------------------------------------------------------------------

theorem aget_foldl_bump (pts : List (String × Int)) (m : List (String × Int))
    (pid : String) :
    aget (pts.foldl (fun m pt => upsertWith m pt.1 (fun t => t + pt.2) pt.2) m) pid =
      match aget m pid with
      | some a => some (a + ((pts.filter (fun pt => pt.1 == pid)).map (fun pt => pt.2)).sum)
      | none =>
        if pts.any (fun pt => pt.1 == pid)
        then some (((pts.filter (fun pt => pt.1 == pid)).map (fun pt => pt.2)).sum)
        else none := by
  induction pts generalizing m with
  | nil => cases haM : aget m pid <;> simp [haM]
  | cons pt t ih =>
    rw [List.foldl_cons, ih, List.filter_cons, List.any_cons]
    by_cases hp : pt.1 = pid
    · have hpb : (pt.1 == pid) = true := by rw [beq_iff_eq]; exact hp
      have hself : aget (upsertWith m pt.1 (fun t => t + pt.2) pt.2) pid =
          some (((aget m pid).map (fun t => t + pt.2)).getD pt.2) := by
        rw [hp, aget_upsertWith_self]
      rw [hself, hpb]
      cases haM : aget m pid <;> (simp; try ring)
    · have hpb : (pt.1 == pid) = false := by rw [beq_eq_false_iff_ne]; exact hp
      rw [aget_upsertWith_ne _ _ _ _ _ (fun hbad => hp hbad.symm), hpb]
      cases haM : aget m pid with
      | some a => simp [haM]
      | none =>
        simp only [haM]
        rw [Bool.false_or, if_neg (show ¬ (false = true) by decide)]

theorem sessionPageTotals_aget (pts : List (String × Int)) (pid : String) :
    aget (sessionPageTotals pts) pid =
      if pts.any (fun pt => pt.1 == pid)
      then some (((pts.filter (fun pt => pt.1 == pid)).map (fun pt => pt.2)).sum)
      else none := by
  unfold sessionPageTotals
  rw [aget_foldl_bump]
  rfl

theorem upsertWith_keys_nodup {α : Type} (m : List (String × α)) (k : String)
    (f : α → α) (init : α) (h : (m.map (fun p => p.1)).Nodup) :
    ((upsertWith m k f init).map (fun p => p.1)).Nodup := by
  by_cases hany : m.any (fun p => p.1 == k)
  · rw [keys_upsertWith_of_mem _ _ _ _ hany]
    exact h
  · rw [keys_upsertWith_of_not_mem _ _ _ _ hany]
    rw [List.nodup_append]
    refine ⟨h, List.nodup_singleton k, ?_⟩
    intro x hx hk
    simp at hk
    subst hk
    obtain ⟨p, hp, hpx⟩ := List.mem_map.mp hx
    exact hany (List.any_eq_true.mpr ⟨p, hp, by rw [beq_iff_eq]; exact hpx⟩)

theorem sessionPageTotals_keys_nodup (pts : List (String × Int)) :
    ((sessionPageTotals pts).map (fun p => p.1)).Nodup := by
  unfold sessionPageTotals
  suffices h : ∀ m : List (String × Int), (m.map (fun p => p.1)).Nodup →
      ((pts.foldl (fun m pt => upsertWith m pt.1 (fun t => t + pt.2) pt.2) m).map
        (fun p => p.1)).Nodup by
    exact h [] (by simp)
  induction pts with
  | nil => intro m hm; exact hm
  | cons pt t ih =>
    intro m hm
    rw [List.foldl_cons]
    exact ih _ (upsertWith_keys_nodup m pt.1 _ _ hm)

theorem filter_of_nodup_keys {α : Type} (m : List (String × α)) (pid : String)
    (h : (m.map (fun p => p.1)).Nodup) :
    m.filter (fun e => e.1 == pid) =
      match m.find? (fun e => e.1 == pid) with
      | some e => [e]
      | none => [] := by
  induction m with
  | nil => rfl
  | cons a t ih =>
    rw [List.map_cons, List.nodup_cons] at h
    obtain ⟨hnotin, ht⟩ := h
    rw [List.filter_cons]
    cases ha : (a.1 == pid) with
    | true =>
      have haProp : a.1 = pid := by rw [← beq_iff_eq]; exact ha
      have hfilt : t.filter (fun e => e.1 == pid) = [] := by
        rw [List.filter_eq_nil_iff]
        intro e he hbe
        rw [beq_iff_eq] at hbe
        exact hnotin (List.mem_map.mpr ⟨e, he, by rw [hbe, haProp]⟩)
      have hfind : (a :: t).find? (fun e => e.1 == pid) = some a :=
        List.find?_cons_of_pos t ha
      rw [hfind, if_pos rfl, hfilt]
    | false =>
      have hfind : (a :: t).find? (fun e => e.1 == pid) = t.find? (fun e => e.1 == pid) :=
        List.find?_cons_of_neg t (by simp [ha])
      rw [hfind, ← ih ht]
      rw [if_neg (by decide)]

theorem sessionPageTotals_filter (pts : List (String × Int)) (pid : String) :
    (sessionPageTotals pts).filter (fun e => e.1 == pid) =
      if pts.any (fun pt => pt.1 == pid)
      then [(pid, ((pts.filter (fun pt => pt.1 == pid)).map (fun pt => pt.2)).sum)]
      else [] := by
  rw [filter_of_nodup_keys _ _ (sessionPageTotals_keys_nodup pts)]
  have haget := sessionPageTotals_aget pts pid
  unfold aget at haget
  by_cases hany : pts.any (fun pt => pt.1 == pid)
  · rw [if_pos hany] at haget ⊢
    cases hfind : (sessionPageTotals pts).find? (fun e => e.1 == pid) with
    | none => rw [hfind] at haget; simp at haget
    | some e =>
      rw [hfind] at haget
      have he1 := List.find?_some hfind
      rw [beq_iff_eq] at he1
      have he2 : e.2 = ((pts.filter (fun pt => pt.1 == pid)).map (fun pt => pt.2)).sum := by
        simpa using haget
      rw [show e = (e.1, e.2) from rfl, he1, he2]
  · rw [if_neg hany] at haget ⊢
    cases hfind : (sessionPageTotals pts).find? (fun e => e.1 == pid) with
    | none => rfl
    | some e => rw [hfind] at haget; simp at haget

theorem ttOf_addPageTime_self (acc : List (String × PStat)) (pid : String) (v : Int) :
    ttOf (addPageTime acc pid v) pid = ttOf acc pid + v := by
  unfold ttOf addPageTime
  rw [aget_upsertWith_self]
  cases haM : aget acc pid <;> simp

theorem ntOf_addPageTime_self (acc : List (String × PStat)) (pid : String) (v : Int) :
    ntOf (addPageTime acc pid v) pid = ntOf acc pid + 1 := by
  unfold ntOf addPageTime
  rw [aget_upsertWith_self]
  cases haM : aget acc pid <;> simp

theorem ttOf_addPageTime_ne (acc : List (String × PStat)) (pid k : String) (v : Int)
    (h : pid ≠ k) : ttOf (addPageTime acc k v) pid = ttOf acc pid := by
  unfold ttOf addPageTime
  rw [aget_upsertWith_ne _ _ _ _ _ h]

theorem ntOf_addPageTime_ne (acc : List (String × PStat)) (pid k : String) (v : Int)
    (h : pid ≠ k) : ntOf (addPageTime acc k v) pid = ntOf acc pid := by
  unfold ntOf addPageTime
  rw [aget_upsertWith_ne _ _ _ _ _ h]

theorem ttOf_addPageErrors (acc : List (String × PStat)) (pid k : String) (c : Int) :
    ttOf (addPageErrors acc k c) pid = ttOf acc pid := by
  unfold ttOf addPageErrors
  by_cases h : pid = k
  · subst h
    rw [aget_upsertWith_self]
    cases haM : aget acc pid <;> simp [zeroStat]
  · rw [aget_upsertWith_ne _ _ _ _ _ h]

theorem ntOf_addPageErrors (acc : List (String × PStat)) (pid k : String) (c : Int) :
    ntOf (addPageErrors acc k c) pid = ntOf acc pid := by
  unfold ntOf addPageErrors
  by_cases h : pid = k
  · subst h
    rw [aget_upsertWith_self]
    cases haM : aget acc pid <;> simp [zeroStat]
  · rw [aget_upsertWith_ne _ _ _ _ _ h]

theorem foldl_addPageTime_tt (entries : List (String × Int))
    (acc : List (String × PStat)) (pid : String) :
    ttOf (entries.foldl (fun a e => addPageTime a e.1 e.2) acc) pid =
      ttOf acc pid + ((entries.filter (fun e => e.1 == pid)).map (fun e => e.2)).sum := by
  induction entries generalizing acc with
  | nil => simp
  | cons e t ih =>
    rw [List.foldl_cons, ih, List.filter_cons]
    by_cases hp : e.1 = pid
    · have hpb : (e.1 == pid) = true := by rw [beq_iff_eq]; exact hp
      rw [hpb, hp, ttOf_addPageTime_self]
      simp
      ring
    · have hpb : (e.1 == pid) = false := by rw [beq_eq_false_iff_ne]; exact hp
      rw [hpb, ttOf_addPageTime_ne _ _ _ _ (fun hbad => hp hbad.symm)]
      simp

theorem foldl_addPageTime_nt (entries : List (String × Int))
    (acc : List (String × PStat)) (pid : String) :
    ntOf (entries.foldl (fun a e => addPageTime a e.1 e.2) acc) pid =
      ntOf acc pid + entries.countP (fun e => e.1 == pid) := by
  induction entries generalizing acc with
  | nil => simp
  | cons e t ih =>
    rw [List.foldl_cons, ih, List.countP_cons]
    by_cases hp : e.1 = pid
    · have hpb : (e.1 == pid) = true := by rw [beq_iff_eq]; exact hp
      rw [hpb, hp, ntOf_addPageTime_self]
      simp
      omega
    · have hpb : (e.1 == pid) = false := by rw [beq_eq_false_iff_ne]; exact hp
      rw [hpb, ntOf_addPageTime_ne _ _ _ _ (fun hbad => hp hbad.symm)]
      simp

theorem foldl_addPageErrors_tt (ecs : List (String × Int))
    (acc : List (String × PStat)) (pid : String) :
    ttOf (ecs.foldl (fun a e => addPageErrors a e.1 e.2) acc) pid = ttOf acc pid := by
  induction ecs generalizing acc with
  | nil => rfl
  | cons e t ih => rw [List.foldl_cons, ih, ttOf_addPageErrors]

theorem foldl_addPageErrors_nt (ecs : List (String × Int))
    (acc : List (String × PStat)) (pid : String) :
    ntOf (ecs.foldl (fun a e => addPageErrors a e.1 e.2) acc) pid = ntOf acc pid := by
  induction ecs generalizing acc with
  | nil => rfl
  | cons e t ih => rw [List.foldl_cons, ih, ntOf_addPageErrors]

theorem ttOf_accumSession (acc : List (String × PStat)) (s : StatSession) (pid : String) :
    ttOf (accumSession acc s) pid =
      ttOf acc pid + (if sessionVisited s pid then sessionTotalFor s pid else 0) := by
  unfold accumSession sessionVisited sessionTotalFor
  cases hpt : s.pageTimings with
  | none =>
    cases hec : s.errorCountsByPage with
    | none => simp
    | some ecs => rw [foldl_addPageErrors_tt]; simp
  | some pts =>
    have htim : ttOf ((sessionPageTotals pts).foldl
        (fun a e => addPageTime a e.1 e.2) acc) pid =
        ttOf acc pid + (if pts.any (fun pt => pt.1 == pid)
          then ((pts.filter (fun pt => pt.1 == pid)).map (fun pt => pt.2)).sum else 0) := by
      rw [foldl_addPageTime_tt, sessionPageTotals_filter]
      by_cases hany : pts.any (fun pt => pt.1 == pid)
      · rw [if_pos hany, if_pos hany]; simp
      · rw [if_neg hany, if_neg hany]; simp
    cases hec : s.errorCountsByPage with
    | none => exact htim
    | some ecs => rw [foldl_addPageErrors_tt]; exact htim

theorem ntOf_accumSession (acc : List (String × PStat)) (s : StatSession) (pid : String) :
    ntOf (accumSession acc s) pid =
      ntOf acc pid + (if sessionVisited s pid then 1 else 0) := by
  unfold accumSession sessionVisited
  cases hpt : s.pageTimings with
  | none =>
    cases hec : s.errorCountsByPage with
    | none => simp
    | some ecs => rw [foldl_addPageErrors_nt]; simp
  | some pts =>
    have htim : ntOf ((sessionPageTotals pts).foldl
        (fun a e => addPageTime a e.1 e.2) acc) pid =
        ntOf acc pid + (if pts.any (fun pt => pt.1 == pid) then 1 else 0) := by
      rw [foldl_addPageTime_nt, List.countP_eq_length_filter, sessionPageTotals_filter]
      by_cases hany : pts.any (fun pt => pt.1 == pid)
      · rw [if_pos hany, if_pos hany]; simp
      · rw [if_neg hany, if_neg hany]; simp
    cases hec : s.errorCountsByPage with
    | none => exact htim
    | some ecs => rw [foldl_addPageErrors_nt]; exact htim

theorem foldl_accumSession_tt (ss : List StatSession) (acc : List (String × PStat))
    (pid : String) :
    ttOf (ss.foldl accumSession acc) pid =
      ttOf acc pid +
        ((ss.filter (fun s => sessionVisited s pid)).map
          (fun s => sessionTotalFor s pid)).sum := by
  induction ss generalizing acc with
  | nil => simp
  | cons s t ih =>
    rw [List.foldl_cons, ih, ttOf_accumSession, List.filter_cons]
    by_cases hv : sessionVisited s pid
    · rw [if_pos hv]
      simp [hv]
      ring
    · rw [if_neg hv]
      simp [hv]

theorem foldl_accumSession_nt (ss : List StatSession) (acc : List (String × PStat))
    (pid : String) :
    ntOf (ss.foldl accumSession acc) pid =
      ntOf acc pid + (ss.filter (fun s => sessionVisited s pid)).length := by
  induction ss generalizing acc with
  | nil => simp
  | cons s t ih =>
    rw [List.foldl_cons, ih, ntOf_accumSession, List.filter_cons]
    by_cases hv : sessionVisited s pid
    · rw [if_pos hv]
      simp [hv]
      omega
    · rw [if_neg hv]
      simp [hv]

theorem init_tt (pid : String) :
    ttOf (PAGE_ORDER.map (fun pid => (pid, zeroStat))) pid = 0 := by
  unfold ttOf aget
  cases hfind : (PAGE_ORDER.map (fun pid => (pid, zeroStat))).find?
      (fun p => p.1 == pid) with
  | none => rfl
  | some e =>
    have hmem := List.mem_of_find?_eq_some hfind
    obtain ⟨q, _, hqe⟩ := List.mem_map.mp hmem
    rw [← hqe]
    rfl

theorem init_nt (pid : String) :
    ntOf (PAGE_ORDER.map (fun pid => (pid, zeroStat))) pid = 0 := by
  unfold ntOf aget
  cases hfind : (PAGE_ORDER.map (fun pid => (pid, zeroStat))).find?
      (fun p => p.1 == pid) with
  | none => rfl
  | some e =>
    have hmem := List.mem_of_find?_eq_some hfind
    obtain ⟨q, _, hqe⟩ := List.mem_map.mp hmem
    rw [← hqe]
    rfl

/-- Claim C3: the per-page statistics first collapse each session's multiple
visits to a page into one per-session total, then average those totals
across the sessions that visited the page — each participant contributes
exactly one data point per page. On the concrete example (one session
visiting `application_review` for 3000ms and 4000ms, another visiting once
for 5000ms) the average is (7000+5000)/2 = 6000ms, not (3000+4000+5000)/3. -/
theorem claim_C3_per_session_first_averaging :
    (∀ (exploitable : List StatSession) (pid : String),
        statTotalTime exploitable pid =
          ((exploitable.filter (fun s => sessionVisited s pid)).map
            (fun s => sessionTotalFor s pid)).sum ∧
        statNTime exploitable pid =
          (exploitable.filter (fun s => sessionVisited s pid)).length) ∧
    (avgTimeQ
        [⟨some [("application_review", 3000), ("application_review", 4000)], none⟩,
         ⟨some [("application_review", 5000)], none⟩] "application_review" = 6000 ∧
     avgTimeQ
        [⟨some [("application_review", 3000), ("application_review", 4000)], none⟩,
         ⟨some [("application_review", 5000)], none⟩] "application_review" ≠
       (3000 + 4000 + 5000 : ℚ) / 3) := by
  have hmain : ∀ (exploitable : List StatSession) (pid : String),
      statTotalTime exploitable pid =
        ((exploitable.filter (fun s => sessionVisited s pid)).map
          (fun s => sessionTotalFor s pid)).sum ∧
      statNTime exploitable pid =
        (exploitable.filter (fun s => sessionVisited s pid)).length := by
    intro exploitable pid
    constructor
    · show ttOf (pageStatsOf exploitable) pid = _
      unfold pageStatsOf
      rw [foldl_accumSession_tt, init_tt]
      simp
    · show ntOf (pageStatsOf exploitable) pid = _
      unfold pageStatsOf
      rw [foldl_accumSession_nt, init_nt]
      simp
  refine ⟨hmain, ?_, ?_⟩
  · have h1 := hmain
      [⟨some [("application_review", 3000), ("application_review", 4000)], none⟩,
       ⟨some [("application_review", 5000)], none⟩] "application_review"
    unfold avgTimeQ
    rw [h1.1, h1.2]
    norm_num [sessionVisited, sessionTotalFor]
  · have h1 := hmain
      [⟨some [("application_review", 3000), ("application_review", 4000)], none⟩,
       ⟨some [("application_review", 5000)], none⟩] "application_review"
    unfold avgTimeQ
    rw [h1.1, h1.2]
    norm_num [sessionVisited, sessionTotalFor]

-- ---------------------------------------------------------------------------
-- C10: a late snapshot cannot clear the completion flag in the merged view.
-- ---------------------------------------------------------------------------

theorem jget_stampWritten (o : JObj) (w : String) (k : String)
    (hk : k ≠ "_written_at") : jget (stampWritten o w) k = jget o k := by
  unfold stampWritten
  rw [jget_append]
  have hone : jget [("_written_at", JVal.jstr w)] k = none := by
    unfold jget
    have : ("_written_at" == k) = false := by
      rw [beq_eq_false_iff_ne]
      exact fun hbad => hk hbad.symm
    simp [List.filter, this]
  rw [hone]
  simp

theorem merged_single_two_updates (creation u1 u2 : JObj)
    (h1 : sessionKey u1 = sessionKey creation)
    (h2 : sessionKey u2 = sessionKey creation) :
    getMergedSessions [creation] [u1, u2] = [jassign (jassign creation u1) u2] := by
  have hfold := foldl_applyUpdate_singleton [u1, u2] (sessionKey creation) creation
    (by intro u hu; simp at hu; rcases hu with hu | hu <;> subst hu <;> assumption)
  unfold getMergedSessions
  rw [show [creation].foldl insertSession [] = [(sessionKey creation, creation)] from rfl,
    hfold]
  rfl

/-- Claim C10: the snapshot update record carries no `is_complete` field, so
when a snapshot is appended after a completion update for the same session,
the merged view still reads `is_complete = true`, while the behavioral
aggregate fields (`pageTimings`, `docInteractions`, `formResponses`,
`totalDurationMs`) are replaced by the snapshot's values; the in-memory
index, by contrast, refuses to apply a snapshot to an already-complete
entry. -/
theorem claim_C10_late_snapshot_merged_view :
    (∀ (body : JObj) (now : String),
        jget (snapshotRecord body now) "is_complete" = none) ∧
    (∀ (creation body1 body2 : JObj) (t1 t2 w1 w2 : String),
        sessionKey (stampWritten (completionRecord body1 t1) w1) = sessionKey creation →
        sessionKey (stampWritten (snapshotRecord body2 t2) w2) = sessionKey creation →
        (jget ((getMergedSessions [creation]
            [stampWritten (completionRecord body1 t1) w1,
             stampWritten (snapshotRecord body2 t2) w2]).headD []) "is_complete" =
          some (JVal.jbool true) ∧
         jget ((getMergedSessions [creation]
            [stampWritten (completionRecord body1 t1) w1,
             stampWritten (snapshotRecord body2 t2) w2]).headD []) "pageTimings" =
          some (jsOr (jget body2 "pageTimings") (JVal.jarr [])) ∧
         jget ((getMergedSessions [creation]
            [stampWritten (completionRecord body1 t1) w1,
             stampWritten (snapshotRecord body2 t2) w2]).headD []) "docInteractions" =
          some (jsOr (jget body2 "docInteractions") (JVal.jarr [])) ∧
         jget ((getMergedSessions [creation]
            [stampWritten (completionRecord body1 t1) w1,
             stampWritten (snapshotRecord body2 t2) w2]).headD []) "formResponses" =
          some (jsOr (jget body2 "formResponses") (JVal.jobj [])) ∧
         jget ((getMergedSessions [creation]
            [stampWritten (completionRecord body1 t1) w1,
             stampWritten (snapshotRecord body2 t2) w2]).headD []) "totalDurationMs" =
          some (jsOr (jget body2 "totalDurationMs") (JVal.jnum 0)))) ∧
    (∀ (entry snapshot : JObj), truthyOpt (jget entry "is_complete") = true →
        applySnapshotToIndex entry snapshot = entry) := by
  refine ⟨fun body now => rfl, ?_, ?_⟩
  · intro creation body1 body2 t1 t2 w1 w2 h1 h2
    rw [merged_single_two_updates creation _ _ h1 h2]
    rw [show ([jassign (jassign creation (stampWritten (completionRecord body1 t1) w1))
          (stampWritten (snapshotRecord body2 t2) w2)]).headD [] =
        jassign (jassign creation (stampWritten (completionRecord body1 t1) w1))
          (stampWritten (snapshotRecord body2 t2) w2) from rfl]
    unfold jassign
    refine ⟨?_, ?_, ?_, ?_, ?_⟩
    · rw [jget_append, jget_append,
        jget_stampWritten _ _ _ (by decide), jget_stampWritten _ _ _ (by decide)]
      rw [show jget (snapshotRecord body2 t2) "is_complete" = none from rfl,
        show jget (completionRecord body1 t1) "is_complete" = some (JVal.jbool true)
          from rfl]
      rfl
    · rw [jget_append, jget_stampWritten _ _ _ (by decide)]
      rw [show jget (snapshotRecord body2 t2) "pageTimings" =
          some (jsOr (jget body2 "pageTimings") (JVal.jarr [])) from rfl]
      rfl
    · rw [jget_append, jget_stampWritten _ _ _ (by decide)]
      rw [show jget (snapshotRecord body2 t2) "docInteractions" =
          some (jsOr (jget body2 "docInteractions") (JVal.jarr [])) from rfl]
      rfl
    · rw [jget_append, jget_stampWritten _ _ _ (by decide)]
      rw [show jget (snapshotRecord body2 t2) "formResponses" =
          some (jsOr (jget body2 "formResponses") (JVal.jobj [])) from rfl]
      rfl
    · rw [jget_append, jget_stampWritten _ _ _ (by decide)]
      rw [show jget (snapshotRecord body2 t2) "totalDurationMs" =
          some (jsOr (jget body2 "totalDurationMs") (JVal.jnum 0)) from rfl]
      rfl
  · intro entry snapshot h
    unfold applySnapshotToIndex
    rw [if_pos h]

/-- Witness for C10: a concrete completion followed by a concrete snapshot,
merged — the completion flag survives while the snapshot's aggregates win. -/
theorem claim_C10_witness :
    jget ((getMergedSessions [[("session_id", JVal.jstr "s1")]]
        [stampWritten (completionRecord
            [("session_id", JVal.jstr "s1"), ("totalDurationMs", JVal.jnum 9000)] "T1") "W1",
         stampWritten (snapshotRecord
            [("session_id", JVal.jstr "s1"), ("totalDurationMs", JVal.jnum 8000)] "T2") "W2"]).headD [])
      "is_complete" = some (JVal.jbool true) :=
  ((claim_C10_late_snapshot_merged_view.2.1
    [("session_id", JVal.jstr "s1")]
    [("session_id", JVal.jstr "s1"), ("totalDurationMs", JVal.jnum 9000)]
    [("session_id", JVal.jstr "s1"), ("totalDurationMs", JVal.jnum 8000)]
    "T1" "T2" "W1" "W2" (by decide) (by decide)).1)

end Sludge
